import Mathlib

/-!
Verification of the transfer Actor of maidsafe/safe-transfers.

The development shallowly embeds `src/actor.rs` (the AT2 client-side Actor:
the commands `transfer`, `receive`, `register`, `synch` and the event fold
`apply`) together with the event types of `src/lib.rs`.  The `Account`
ledger lives in `src/account.rs`, which is not part of the provided
sources; it is modelled from the specification (section 4.1), as marked on
each of its definitions.

Cryptography is idealised: a signature records the key and the message it
was produced over, and verification compares those records.  `bincode`
serialisation is canonical and injective on the signed payloads, so the
serialised bytes of a value are modelled by the value itself.  A threshold
BLS signature share records the key set, the share index and the message;
combining at least `threshold + 1` shares that are all consistent yields
the aggregated group signature, and combining an inconsistent batch yields
a garbage signature that verifies under no key.  `combine_signatures`
returns `none` when fewer than `threshold + 1` distinct indices are
supplied, which the source turns into a panic via `expect`.
-/

namespace SafeTransfers

/-- Account ids are public keys; equality is by key bytes, modelled by `Nat`. -/
abbrev AccountId := Nat

/-- A `crdts::Dot`: the unique identity of a transfer. -/
structure Dot where
  actor : AccountId
  counter : Nat
deriving DecidableEq

/-- A transfer of an amount (in nano) from `id.actor` to `to`. -/
structure Transfer where
  id : Dot
  «to» : AccountId
  amount : Nat
deriving DecidableEq

/-- Idealised actor (ed25519/BLS) signature: records the signing key and the
serialised transfer that was signed. -/
structure ActorSig where
  signer : AccountId
  msg : Transfer
deriving DecidableEq

/-- A transfer together with the actor signature over its serialisation. -/
structure SignedTransfer where
  transfer : Transfer
  actor_signature : ActorSig
deriving DecidableEq

/-- A threshold-BLS public key set, abstracted to an identity and its
threshold.  Its group public key is modelled by the key set itself. -/
structure PublicKeySet where
  id : Nat
  threshold : Nat
deriving DecidableEq

/-- Idealised BLS signature share: records the key set it belongs to, the
index it was generated at, and the signed transfer it signs. -/
structure BlsShare where
  keyset : PublicKeySet
  index : Nat
  msg : SignedTransfer
deriving DecidableEq

/-- A `safe_nd::SignatureShare`: a share with its index in the collection. -/
structure SignatureShare where
  index : Nat
  share : BlsShare
deriving DecidableEq

/-- Idealised aggregated BLS signature: either the honest aggregate of a key
set over a message, or garbage obtained by combining inconsistent shares. -/
inductive BlsSig where
  | valid (keyset : PublicKeySet) (msg : SignedTransfer)
  | garbage
deriving DecidableEq

/-- A Replica validation of a transfer (emitted by a Replica). -/
structure TransferValidated where
  signed_transfer : SignedTransfer
  replica_signature : SignatureShare
  replicas : PublicKeySet
deriving DecidableEq

/-- An aggregated debit agreement proof. -/
structure DebitAgreementProof where
  signed_transfer : SignedTransfer
  debiting_replicas_sig : BlsSig
  replica_key : PublicKeySet
deriving DecidableEq

/-- An incoming credit: a debit proof plus the public key of the remote
Replica group that produced it. -/
structure ReceivedCredit where
  debit_proof : DebitAgreementProof
  debiting_replicas : PublicKeySet
deriving DecidableEq

/-- Error kinds of `safe_nd::Error`, restricted to those the Actor emits.
`Error::from` of a message string is modelled by `Error.other`. -/
inductive Error where
  | invalidSignature
  | insufficientBalance
  | invalidOperation
  | networkOther (msg : String)
  | other (msg : String)
deriving DecidableEq

/-- Verification of an actor signature under a public key over a serialised
transfer. -/
def verifyActorSig (pk : AccountId) (sig : ActorSig) (data : Transfer) : Bool :=
  decide (sig.signer = pk ∧ sig.msg = data)

/-- Verification of a BLS signature share under `R.public_key_share i` over a
serialised signed transfer. -/
def verifyShareSig (R : PublicKeySet) (i : Nat) (s : BlsShare) (data : SignedTransfer) : Bool :=
  decide (s.keyset = R ∧ s.index = i ∧ s.msg = data)

/-- Verification of an aggregated BLS signature under the public key of the
key set `R` over a serialised signed transfer. -/
def verifyBls (R : PublicKeySet) (sig : BlsSig) (data : SignedTransfer) : Bool :=
  decide (sig = .valid R data)

/-- Insertion into an association list keyed by share index, replacing an
existing entry; models `BTreeMap` insertion where later entries win. -/
def insertShare (l : List (Nat × BlsShare)) (p : Nat × BlsShare) : List (Nat × BlsShare) :=
  match l with
  | [] => [p]
  | q :: rest => if q.1 = p.1 then p :: rest else q :: insertShare rest p

/-- Collecting an iterator of `(index, share)` pairs into a `BTreeMap`:
entries with a duplicate index collapse, the last one winning. -/
def collectShares (l : List (Nat × BlsShare)) : List (Nat × BlsShare) :=
  l.foldl insertShare []

/-- `PublicKeySet::combine_signatures`: fails (`none`, turned into a panic by
the caller) when fewer than `threshold + 1` distinct indices are supplied;
otherwise produces the honest aggregate when every share is a share of `R`
at its map index over one common message, and garbage otherwise. -/
def combine_signatures (R : PublicKeySet) (m : List (Nat × BlsShare)) : Option BlsSig :=
  if m.length < R.threshold + 1 then none
  else
    match m with
    | [] => none
    | p₀ :: _ =>
      if m.all fun p => decide (p.2.keyset = R ∧ p.2.index = p.1 ∧ p.2.msg = p₀.2.msg) then
        some (.valid R p₀.2.msg)
      else
        some .garbage

/-- Modelled from the spec: the `Account` ledger of `src/account.rs`, which
is not among the provided sources.  It stores the owner id and the ordered
lists of applied credits and debits (spec section 4.1). -/
structure Account where
  id : AccountId
  credits : List Transfer
  debits : List Transfer
deriving DecidableEq

/-- Modelled from the spec: a fresh account has no credits and no debits. -/
def Account.new (id : AccountId) : Account := ⟨id, [], []⟩

/-- Modelled from the spec: balance is total credits minus total debits
(never underflowing on applied histories). -/
def Account.balance (a : Account) : Nat :=
  (a.credits.map (·.amount)).sum - (a.debits.map (·.amount)).sum

/-- Modelled from the spec: the next expected debit counter is the length of
the debits list. -/
def Account.next_debit (a : Account) : Nat := a.debits.length

/-- Modelled from the spec: credits from index `i` to the end. -/
def Account.credits_since (a : Account) (i : Nat) : List Transfer := a.credits.drop i

/-- Modelled from the spec: debits from index `i` to the end. -/
def Account.debits_since (a : Account) (i : Nat) : List Transfer := a.debits.drop i

/-- Modelled from the spec: whether any applied credit or debit has this id. -/
def Account.contains (a : Account) (dot : Dot) : Bool :=
  (a.credits ++ a.debits).any fun t => decide (t.id = dot)

/-- Modelled from the spec: `Err(InvalidOperation)` when the transfer does
not debit the owner, otherwise whether its counter is the next debit. -/
def Account.is_sequential (a : Account) (t : Transfer) : Except Error Bool :=
  if t.id.actor ≠ a.id then .error .invalidOperation
  else .ok (decide (t.id.counter = a.next_debit))

/-- Modelled from the spec: unchecked append; a transfer to the owner from
another actor goes to the credits, anything else to the debits. -/
def Account.append (a : Account) (t : Transfer) : Account :=
  if t.to = a.id ∧ t.id.actor ≠ a.id then { a with credits := a.credits ++ [t] }
  else { a with debits := a.debits ++ [t] }

/-- The credit loop of `apply` on `TransfersSynched`: append every synched
credit to the account. -/
def Account.applyCredits (acc : Account) (credits : List ReceivedCredit) : Account :=
  credits.foldl (fun b c => b.append c.debit_proof.signed_transfer.transfer) acc

/-- The debit loop of `apply` on `TransfersSynched`: append every synched
debit to the account. -/
def Account.applyDebits (acc : Account) (debits : List DebitAgreementProof) : Account :=
  debits.foldl (fun b p => b.append p.signed_transfer.transfer) acc

/-- The event `TransferInitiated` of `src/lib.rs`. -/
structure TransferInitiated where
  signed_transfer : SignedTransfer
deriving DecidableEq

/-- `TransferInitiated::id`: the dot of the initiated transfer. -/
def TransferInitiated.id (e : TransferInitiated) : Dot := e.signed_transfer.transfer.id

/-- The event `TransferValidationReceived` of `src/lib.rs`. -/
structure TransferValidationReceived where
  validation : TransferValidated
  proof : Option DebitAgreementProof
deriving DecidableEq

/-- The event `TransferRegistrationSent` of `src/lib.rs`. -/
structure TransferRegistrationSent where
  debit_proof : DebitAgreementProof
deriving DecidableEq

/-- The event `TransfersSynched` of `src/lib.rs`. -/
structure TransfersSynched where
  credits : List ReceivedCredit
  debits : List DebitAgreementProof
deriving DecidableEq

/-- The events raised by the Actor that `Actor::apply` folds into state. -/
inductive ActorEvent where
  | transferInitiated (e : TransferInitiated)
  | transferValidationReceived (e : TransferValidationReceived)
  | transferRegistrationSent (e : TransferRegistrationSent)
  | transfersSynched (e : TransfersSynched)
deriving DecidableEq

/-- A Replica `TransferPropagated` event, as consumed by `synch`. -/
structure TransferPropagated where
  debit_proof : DebitAgreementProof
  debiting_replicas : PublicKeySet
deriving DecidableEq

/-- The dot identifying a propagated transfer. -/
def TransferPropagated.eventId (e : TransferPropagated) : Dot :=
  e.debit_proof.signed_transfer.transfer.id

/-- A Replica `TransferRegistered` event, as consumed by `synch`. -/
structure TransferRegistered where
  debit_proof : DebitAgreementProof
deriving DecidableEq

/-- The dot identifying a registered transfer. -/
def TransferRegistered.eventId (e : TransferRegistered) : Dot :=
  e.debit_proof.signed_transfer.transfer.id

/-- Replica events: `synch` inspects only `TransferPropagated` and
`TransferRegistered`; every other variant is ignored. -/
inductive ReplicaEvent where
  | transferPropagated (e : TransferPropagated)
  | transferRegistered (e : TransferRegistered)
  | otherEvent
deriving DecidableEq

/-- The recipient of the credit carried by a `ReceivedCredit`. -/
def ReceivedCredit.to (c : ReceivedCredit) : AccountId :=
  c.debit_proof.signed_transfer.transfer.to

/-- The dot of the credit carried by a `ReceivedCredit`. -/
def ReceivedCredit.creditId (c : ReceivedCredit) : Dot :=
  c.debit_proof.signed_transfer.transfer.id

/-- The transfer counter certified by a debit agreement proof. -/
def DebitAgreementProof.counter (p : DebitAgreementProof) : Nat :=
  p.signed_transfer.transfer.id.counter

/-- The Actor state of `src/actor.rs`.  The signing key holder is modelled
by `id` (its public key); the `BTreeMap<PublicKeySet, HashSet<_>>`
accumulator is an association list whose sets are duplicate-free lists in
insertion order (the `BTreeMap` key order only influences the tie-break of
`max_by_key`, on which no verified property depends); the injected
`ReplicaValidator` is the Boolean predicate `replica_validator`. -/
structure Actor where
  id : AccountId
  account : Account
  next_debit_version : Nat
  accumulating_validations : List (PublicKeySet × List TransferValidated)
  replicas : PublicKeySet
  replica_validator : PublicKeySet → Bool

/-- `Actor::new`: fresh account, `next_debit_version = 0`, empty accumulator. -/
def Actor.new (id : AccountId) (replicas : PublicKeySet)
    (validator : PublicKeySet → Bool) : Actor :=
  ⟨id, Account.new id, 0, [], replicas, validator⟩

/-- `Actor::sign`: the client key signs the serialised transfer. -/
def Actor.sign (a : Actor) (t : Transfer) : ActorSig := ⟨a.id, t⟩

/-- `Actor::balance`. -/
def Actor.balance (a : Actor) : Nat := a.account.balance

/-- `Actor::transfer` (step 1): build a signed debit for validation. -/
def Actor.transfer (a : Actor) (amount : Nat) («to» : AccountId) :
    Except Error TransferInitiated :=
  if «to» = a.id then .error (.other "Sender and recipient are the same")
  else
    let id := Dot.mk a.id a.account.next_debit
    if a.next_debit_version ≠ a.account.next_debit then
      .error (.other "Current pending debit has not been completed")
    else if a.next_debit_version ≠ id.counter then
      .error (.other "Debit already proposed or out of order")
    else if a.balance < amount then
      .error .insufficientBalance
    else
      let t : Transfer := ⟨id, «to», amount⟩
      .ok ⟨⟨t, a.sign t⟩⟩

/-- `Actor::verify_is_our_transfer`: the actor signature on the signed
transfer verifies under the client public key. -/
def Actor.verify_is_our_transfer (a : Actor) (st : SignedTransfer) : Bool :=
  verifyActorSig a.id st.actor_signature st.transfer

/-- `Actor::verify`: our signature on the command, and the replica share
against the key set included in the validation. -/
def Actor.verify (a : Actor) (v : TransferValidated) : Bool :=
  a.verify_is_our_transfer v.signed_transfer &&
    verifyShareSig v.replicas v.replica_signature.index v.replica_signature.share
      v.signed_transfer

/-- `Actor::verify_debit_proof`: our signature on the command, and the
aggregated signature against the public key of our own replicas. -/
def Actor.verify_debit_proof (a : Actor) (p : DebitAgreementProof) : Bool :=
  a.verify_is_our_transfer p.signed_transfer &&
    verifyBls a.replicas p.debiting_replicas_sig p.signed_transfer

/-- `Actor::verify_credit_proof`: the remote group passes the injected
validator and the aggregated signature verifies under that group key. -/
def Actor.verify_credit_proof (a : Actor) (c : ReceivedCredit) : Bool :=
  a.replica_validator c.debiting_replicas &&
    verifyBls c.debiting_replicas c.debit_proof.debiting_replicas_sig
      c.debit_proof.signed_transfer

/-- The outcome of `Actor::receive`: a result, or the panic raised by
`expect("not enough shares")` when `combine_signatures` fails. -/
inductive ReceiveResult where
  | ok (ev : TransferValidationReceived)
  | err (e : Error)
  | panic
deriving DecidableEq

/-- `Iterator::max_by_key` on the accumulator: the group with the most
validations, the later entry winning ties. -/
def maxByLenLast (l : List (PublicKeySet × List TransferValidated)) :
    Option (PublicKeySet × List TransferValidated) :=
  l.foldl
    (fun best x =>
      match best with
      | none => some x
      | some b => if b.2.length ≤ x.2.length then some x else some b)
    none

/-- `Actor::receive` (step 2): verify and accumulate a Replica validation,
emitting a debit agreement proof when the quorum is reached. -/
def Actor.receive (a : Actor) (v : TransferValidated) : ReceiveResult :=
  if ¬ a.verify v then .err .invalidSignature
  else
    let st := v.signed_transfer
    if a.id ≠ st.transfer.id.actor then
      .err (.other "Validation not intended for this actor")
    else if a.next_debit_version ≠ st.transfer.id.counter then
      .err (.other "Out of order validation")
    else if a.accumulating_validations.any (fun g => g.2.any fun w => decide (w = v)) then
      .err (.other "Already received validation")
    else
      match maxByLenLast a.accumulating_validations with
      | none => .ok ⟨v, none⟩
      | some (replicas, accumulated) =>
        if replicas.threshold ≤ accumulated.length ∧ replicas = v.replicas then
          let last_sig := v.replica_signature
          let sig_shares := collectShares
            ((accumulated.map fun w => (w.replica_signature.index, w.replica_signature.share))
              ++ [(last_sig.index, last_sig.share)])
          match combine_signatures replicas sig_shares with
          | none => .panic
          | some sig =>
            if verifyBls replicas sig st then
              .ok ⟨v, some ⟨st, sig, replicas⟩⟩
            else
              .ok ⟨v, none⟩
        else
          .ok ⟨v, none⟩

/-- `Actor::register` (step 3): verify the proof and its sequencing. -/
def Actor.register (a : Actor) (p : DebitAgreementProof) :
    Except Error TransferRegistrationSent :=
  if ¬ a.verify_debit_proof p then .error .invalidSignature
  else
    match a.account.is_sequential p.signed_transfer.transfer with
    | .ok true => .ok ⟨p⟩
    | .ok false => .error (.other "Non-sequential opertaion")
    | .error _ => .error .invalidOperation

/-- `Itertools::unique_by`, keeping the first occurrence of every key. -/
def uniqueByAux {α κ : Type} [DecidableEq κ] (key : α → κ) (seen : List κ) :
    List α → List α
  | [] => []
  | x :: rest =>
    if seen.any fun k => decide (k = key x) then uniqueByAux key seen rest
    else x :: uniqueByAux key (key x :: seen) rest

/-- `Itertools::unique_by` from an empty seen-set. -/
def uniqueBy {α κ : Type} [DecidableEq κ] (key : α → κ) (l : List α) : List α :=
  uniqueByAux key [] l

/-- `Actor::validate_credits`: propagated events, deduplicated by dot,
proof-verified, addressed to this actor, and not already in the account. -/
def Actor.validate_credits (a : Actor) (events : List ReplicaEvent) : List ReceivedCredit :=
  ((((uniqueBy (fun e => e.eventId)
      (events.filterMap fun e =>
        match e with
        | .transferPropagated p => some p
        | _ => none)).map
      fun e => ReceivedCredit.mk e.debit_proof e.debiting_replicas).filter
      fun c => a.verify_credit_proof c).filter
      fun c => decide (a.id = c.to)).filter
      fun c => ! a.account.contains c.creditId

/-- Stable insertion of a proof into a counter-sorted list, placed before
the first strictly larger counter. -/
def sortInsert (d : DebitAgreementProof) : List DebitAgreementProof → List DebitAgreementProof
  | [] => [d]
  | e :: rest => if e.counter ≤ d.counter then e :: sortInsert d rest else d :: e :: rest

/-- `Vec::sort_by_key` on the transfer counter, modelled by stable insertion
sort (stable sorts agree on every input). -/
def sortByCounter : List DebitAgreementProof → List DebitAgreementProof
  | [] => []
  | d :: rest => sortInsert d (sortByCounter rest)

/-- The accumulation loop of `Actor::validate_debits`: keep proofs while
their counters match the expected dense sequence, stop at the first gap. -/
def denseTake (expected : Nat) : List DebitAgreementProof → List DebitAgreementProof
  | [] => []
  | d :: rest =>
    if d.counter = expected then d :: denseTake (expected + 1) rest
    else []

/-- `Actor::validate_debits`: registered events, deduplicated by dot, from
this actor, not below the next debit, proof-verified, sorted by counter,
and cut to the dense prefix starting at the next debit. -/
def Actor.validate_debits (a : Actor) (events : List ReplicaEvent) : List DebitAgreementProof :=
  let debits :=
    ((((uniqueBy (fun e => e.eventId)
        (events.filterMap fun e =>
          match e with
          | .transferRegistered r => some r
          | _ => none)).map
        fun e => e.debit_proof).filter
        fun d => decide (a.id = d.signed_transfer.transfer.id.actor)).filter
        fun d => decide (a.account.next_debit ≤ d.counter)).filter
        fun d => a.verify_debit_proof d
  denseTake a.account.next_debit (sortByCounter debits)

/-- `Actor::synch` (step 4): collect validated credits and debits from a
batch of Replica events; an error when there is nothing to sync. -/
def Actor.synch (a : Actor) (events : List ReplicaEvent) : Except Error TransfersSynched :=
  let credits := a.validate_credits events
  let debits := a.validate_debits events
  if 0 < credits.length ∨ 0 < debits.length then .ok ⟨credits, debits⟩
  else .error (.other "No credits or debits found to sync to actor")

/-- `HashMap::get_mut` plus `HashSet::insert` on the accumulator: insert the
validation into the set of its replica group, creating the set if absent. -/
def insertValidation (m : List (PublicKeySet × List TransferValidated))
    (v : TransferValidated) : List (PublicKeySet × List TransferValidated) :=
  match m with
  | [] => [(v.replicas, [v])]
  | (k, s) :: rest =>
    if k = v.replicas then
      (k, if s.any (fun w => decide (w = v)) then s else s ++ [v]) :: rest
    else (k, s) :: insertValidation rest v

/-- `Actor::apply`: fold an actor event into the state. -/
def Actor.apply (a : Actor) (event : ActorEvent) : Actor :=
  match event with
  | .transferInitiated e =>
    { a with next_debit_version := e.id.counter + 1 }
  | .transferValidationReceived e =>
    let a' := if e.proof.isSome then { a with replicas := e.validation.replicas } else a
    { a' with accumulating_validations := insertValidation a'.accumulating_validations e.validation }
  | .transferRegistrationSent e =>
    { a with
      account := a.account.append e.debit_proof.signed_transfer.transfer,
      accumulating_validations := [] }
  | .transfersSynched e =>
    if 0 < e.debits.length then
      { a with
        account := (a.account.applyCredits e.credits).applyDebits e.debits,
        next_debit_version := ((a.account.applyCredits e.credits).applyDebits e.debits).next_debit - 1 }
    else
      { a with account := (a.account.applyCredits e.credits).applyDebits e.debits }

/-- Reachable actor states: a fresh actor followed by any sequence of
`apply` steps whose events were produced by a successful command on the
state they are applied to. -/
inductive Reachable : Actor → Prop where
  | fresh (id : AccountId) (replicas : PublicKeySet) (validator : PublicKeySet → Bool) :
      Reachable (Actor.new id replicas validator)
  | step_transfer {a : Actor} {amount : Nat} {«to» : AccountId} {e : TransferInitiated} :
      Reachable a → a.transfer amount «to» = .ok e →
      Reachable (a.apply (.transferInitiated e))
  | step_receive {a : Actor} {v : TransferValidated} {ev : TransferValidationReceived} :
      Reachable a → a.receive v = .ok ev →
      Reachable (a.apply (.transferValidationReceived ev))
  | step_register {a : Actor} {p : DebitAgreementProof} {ev : TransferRegistrationSent} :
      Reachable a → a.register p = .ok ev →
      Reachable (a.apply (.transferRegistrationSent ev))
  | step_synch {a : Actor} {es : List ReplicaEvent} {ev : TransfersSynched} :
      Reachable a → a.synch es = .ok ev →
      Reachable (a.apply (.transfersSynched ev))

end SafeTransfers

deriving instance DecidableEq for Except

namespace SafeTransfers

/-- Whether a transfer result is the second sequencing error of
`Actor::transfer`. -/
def isOutOfOrderProposalErr (r : Except Error TransferInitiated) : Bool :=
  decide (r = .error (.other "Debit already proposed or out of order"))

def aC1 : Actor := Actor.new 0 ⟨0, 1⟩ (fun _ => true)

def tC1 : Transfer := ⟨⟨0, 0⟩, 1, 0⟩

def stC1 : SignedTransfer := ⟨tC1, ⟨0, tC1⟩⟩

def pC1 : DebitAgreementProof := ⟨stC1, .valid ⟨0, 1⟩ stC1, ⟨0, 1⟩⟩

def esC1 : List ReplicaEvent := [.transferRegistered ⟨pC1⟩]

def evC1 : TransfersSynched := ⟨[], [pC1]⟩

def aW3base : Actor := Actor.new 0 ⟨7, 1⟩ (fun _ => true)

def tW3 : Transfer := ⟨⟨0, 0⟩, 1, 0⟩

def stW3 : SignedTransfer := ⟨tW3, ⟨0, tW3⟩⟩

def vW3a : TransferValidated := ⟨stW3, ⟨0, ⟨⟨7, 1⟩, 0, stW3⟩⟩, ⟨7, 1⟩⟩

def vW3b : TransferValidated := ⟨stW3, ⟨1, ⟨⟨7, 1⟩, 1, stW3⟩⟩, ⟨7, 1⟩⟩

def aW3 : Actor := aW3base.apply (.transferValidationReceived ⟨vW3a, none⟩)

def pW3 : DebitAgreementProof := ⟨stW3, .valid ⟨7, 1⟩ stW3, ⟨7, 1⟩⟩

def evW3 : TransferValidationReceived := ⟨vW3b, some pW3⟩

def aC2 : Actor := Actor.new 0 ⟨0, 1⟩ (fun _ => true)

def tC2 : Transfer := ⟨⟨0, 0⟩, 1, 0⟩

def stC2 : SignedTransfer := ⟨tC2, ⟨0, tC2⟩⟩

def vC2 : TransferValidated := ⟨stC2, ⟨0, ⟨⟨0, 1⟩, 0, stC2⟩⟩, ⟨0, 1⟩⟩

def aC9base : Actor := Actor.new 0 ⟨0, 1⟩ (fun _ => true)

def tC9X : Transfer := ⟨⟨0, 0⟩, 1, 0⟩

def tC9Y : Transfer := ⟨⟨0, 0⟩, 2, 0⟩

def stC9X : SignedTransfer := ⟨tC9X, ⟨0, tC9X⟩⟩

def stC9Y : SignedTransfer := ⟨tC9Y, ⟨0, tC9Y⟩⟩

def vC9X : TransferValidated := ⟨stC9X, ⟨0, ⟨⟨0, 1⟩, 0, stC9X⟩⟩, ⟨0, 1⟩⟩

def vC9Y : TransferValidated := ⟨stC9Y, ⟨0, ⟨⟨0, 1⟩, 0, stC9Y⟩⟩, ⟨0, 1⟩⟩

def aC9 : Actor := aC9base.apply (.transferValidationReceived ⟨vC9X, none⟩)

/-- Written from the words of the spec for comparison with the source
pipeline: take the registered events, deduplicate by dot, keep those from
this actor with counter at least the next debit and a verifying proof, sort
ascending by counter, and keep exactly the longest prefix whose counters
are the dense sequence starting at the next debit, pairing each position
with its expected counter. -/
def specValidDebits (a : Actor) (events : List ReplicaEvent) : List DebitAgreementProof :=
  let deduped := uniqueBy (fun e => e.eventId)
    (events.filterMap fun e =>
      match e with
      | .transferRegistered r => some r
      | _ => none)
  let kept := (deduped.map fun e => e.debit_proof).filter fun d =>
    decide (a.id = d.signed_transfer.transfer.id.actor) &&
      decide (a.account.next_debit ≤ d.counter) &&
      a.verify_debit_proof d
  (((sortByCounter kept).enumFrom a.account.next_debit).takeWhile
    fun q => decide (q.2.counter = q.1)).map Prod.snd

def aC6 : Actor := Actor.new 0 ⟨3, 1⟩ (fun _ => true)

def tC6 : Transfer := ⟨⟨0, 0⟩, 1, 0⟩

def stC6 : SignedTransfer := ⟨tC6, ⟨0, tC6⟩⟩

def pC6 : DebitAgreementProof := ⟨stC6, .valid ⟨3, 1⟩ stC6, ⟨3, 1⟩⟩

def esC6 : List ReplicaEvent := [.transferRegistered ⟨pC6⟩, .otherEvent]

def evC6 : TransfersSynched := ⟨[], [pC6]⟩

/-- The canonical valid validation of `st` by the member of `R` at share
index `i`. -/
def mkValidation (st : SignedTransfer) (R : PublicKeySet) (i : Nat) : TransferValidated :=
  ⟨st, ⟨i, ⟨R, i, st⟩⟩, R⟩

/-- Feed validations to `receive` one at a time, applying the returned
event between calls; stop at the first failure. -/
def feedOutcomes (a : Actor) : List TransferValidated → List ReceiveResult
  | [] => []
  | v :: rest =>
    match a.receive v with
    | .ok ev => .ok ev :: feedOutcomes (a.apply (.transferValidationReceived ev)) rest
    | r => [r]

/-- Classification of a `receive` outcome by its proof payload. -/
inductive FeedOutcome where
  | okNone
  | okSome
  | failed
deriving DecidableEq

/-- Classify one `receive` outcome. -/
def classifyOutcome : ReceiveResult → FeedOutcome
  | .ok ⟨_, none⟩ => .okNone
  | .ok ⟨_, some _⟩ => .okSome
  | _ => .failed

/-- Replace the accumulator of an actor. -/
def withAcc (a : Actor) (m : List (PublicKeySet × List TransferValidated)) : Actor :=
  { a with accumulating_validations := m }

def aC4 : Actor := Actor.new 0 ⟨0, 0⟩ (fun _ => true)

def tC4 : Transfer := ⟨⟨0, 0⟩, 1, 0⟩

def stC4 : SignedTransfer := ⟨tC4, ⟨0, tC4⟩⟩

def RC4 : PublicKeySet := ⟨0, 0⟩

def aW4 : Actor := Actor.new 0 ⟨4, 1⟩ (fun _ => true)

def tW4 : Transfer := ⟨⟨0, 0⟩, 1, 0⟩

def stW4 : SignedTransfer := ⟨tW4, ⟨0, tW4⟩⟩

def RW4 : PublicKeySet := ⟨4, 1⟩

def aW5 : Actor := Actor.new 0 ⟨0, 1⟩ (fun _ => true)

def tW5 : Transfer := ⟨⟨0, 0⟩, 1, 0⟩

def stW5 : SignedTransfer := ⟨tW5, ⟨0, tW5⟩⟩

def pW5 : DebitAgreementProof := ⟨stW5, .valid ⟨5, 1⟩ stW5, ⟨5, 1⟩⟩

/-- Evaluation of `Actor::transfer` as a chain of the three reachable
checks: the second sequencing check never fires because the dot counter is
constructed as `account.next_debit()`. -/
theorem Actor.transfer_eq (a : Actor) (amount : Nat) («to» : AccountId) :
    a.transfer amount «to» =
      if «to» = a.id then .error (.other "Sender and recipient are the same")
      else if a.next_debit_version ≠ a.account.next_debit then
        .error (.other "Current pending debit has not been completed")
      else if a.account.balance < amount then .error .insufficientBalance
      else .ok ⟨⟨⟨⟨a.id, a.account.next_debit⟩, «to», amount⟩,
        ⟨a.id, ⟨⟨a.id, a.account.next_debit⟩, «to», amount⟩⟩⟩⟩ := by
  unfold Actor.transfer Actor.sign Actor.balance
  split_ifs <;> simp_all

/-- Evaluation of `Actor::synch` by the emptiness of the two computed
lists. -/
theorem Actor.synch_eq (a : Actor) (es : List ReplicaEvent) :
    a.synch es =
      if a.validate_credits es = [] ∧ a.validate_debits es = [] then
        .error (.other "No credits or debits found to sync to actor")
      else .ok ⟨a.validate_credits es, a.validate_debits es⟩ := by
  unfold Actor.synch
  rcases hc : a.validate_credits es with _ | ⟨c, cs⟩ <;>
    rcases hd : a.validate_debits es with _ | ⟨d, ds⟩ <;> simp

/-- Claim C7: `transfer(amount, to)` checks its preconditions in order: a
self-transfer error first, then the pending-debit sequencing check, then
`InsufficientBalance`; on success the signed transfer has
`id = Dot(self.id, account.next_debit())`, the given recipient and the
given amount. -/
theorem transfer_precondition_order (a : Actor) (amount : Nat) («to» : AccountId) :
    a.transfer amount «to» =
      if «to» = a.id then .error (.other "Sender and recipient are the same")
      else if a.next_debit_version ≠ a.account.next_debit then
        .error (.other "Current pending debit has not been completed")
      else if a.account.balance < amount then .error .insufficientBalance
      else .ok ⟨⟨⟨⟨a.id, a.account.next_debit⟩, «to», amount⟩,
        ⟨a.id, ⟨⟨a.id, a.account.next_debit⟩, «to», amount⟩⟩⟩⟩ :=
  Actor.transfer_eq a amount «to»

/-- Claim C10: the error branch returning the already-proposed-or-out-of-order
message is unreachable: the dot counter is constructed as
`account.next_debit()` and the preceding check already forces
`next_debit_version = account.next_debit()`. -/
theorem debit_already_proposed_unreachable (a : Actor) (amount : Nat) («to» : AccountId) :
    isOutOfOrderProposalErr (a.transfer amount «to») = false := by
  rw [isOutOfOrderProposalErr, Actor.transfer_eq]
  split_ifs <;> simp

/-- Claim C8: `synch` returns the nothing-to-sync error exactly when both
validated lists are empty, and otherwise returns `TransfersSynched`
carrying exactly those two lists.  The embedded `synch` is a pure function
of the actor (it models `&self` in the source), so the state is unchanged
in every case by construction. -/
theorem synch_nothing_to_sync_iff (a : Actor) (es : List ReplicaEvent) :
    a.synch es =
      if a.validate_credits es = [] ∧ a.validate_debits es = [] then
        .error (.other "No credits or debits found to sync to actor")
      else .ok ⟨a.validate_credits es, a.validate_debits es⟩ :=
  Actor.synch_eq a es

/-- Claim C5: `register(proof)` succeeds exactly when the actor signature
verifies, the aggregated signature verifies under the public key of the
currently trusted replicas, and the transfer is sequential; an aggregate
produced by any other key set is rejected with `InvalidSignature` even if
it verifies under its own `replica_key`; `is_sequential` returning
`Ok(false)` yields the non-sequential error and `Err` yields
`InvalidOperation`. -/
theorem register_ok_iff (a : Actor) (p : DebitAgreementProof) :
    (a.register p = .ok ⟨p⟩ ↔
      (a.verify_is_our_transfer p.signed_transfer = true ∧
        verifyBls a.replicas p.debiting_replicas_sig p.signed_transfer = true ∧
        a.account.is_sequential p.signed_transfer.transfer = .ok true)) ∧
    (a.verify_debit_proof p = false → a.register p = .error .invalidSignature) ∧
    (p.replica_key ≠ a.replicas →
      p.debiting_replicas_sig = .valid p.replica_key p.signed_transfer →
      a.register p = .error .invalidSignature) ∧
    (a.verify_debit_proof p = true →
      a.account.is_sequential p.signed_transfer.transfer = .ok false →
      a.register p = .error (.other "Non-sequential opertaion")) ∧
    (a.verify_debit_proof p = true →
      a.account.is_sequential p.signed_transfer.transfer = .error .invalidOperation →
      a.register p = .error .invalidOperation) := by
  have hfail : a.verify_debit_proof p = false → a.register p = .error .invalidSignature := by
    intro hv; unfold Actor.register; simp [hv]
  have hok : ∀ b, a.verify_debit_proof p = true →
      a.account.is_sequential p.signed_transfer.transfer = .ok b →
      a.register p = (if b then .ok ⟨p⟩ else .error (.other "Non-sequential opertaion")) := by
    intro b hv hs; unfold Actor.register; cases b <;> simp [hv, hs]
  have herr : ∀ e, a.verify_debit_proof p = true →
      a.account.is_sequential p.signed_transfer.transfer = .error e →
      a.register p = .error .invalidOperation := by
    intro e hv hs; unfold Actor.register; simp [hv, hs]
  have hsplit : a.verify_debit_proof p = true ↔
      (a.verify_is_our_transfer p.signed_transfer = true ∧
        verifyBls a.replicas p.debiting_replicas_sig p.signed_transfer = true) := by
    simp [Actor.verify_debit_proof]
  refine ⟨?_, hfail, ?_, ?_, ?_⟩
  · constructor
    · intro h
      cases hv : a.verify_debit_proof p
      · rw [hfail hv] at h; exact absurd h (by simp)
      · rcases hs : a.account.is_sequential p.signed_transfer.transfer with e | b
        · rw [herr e hv hs] at h; exact absurd h (by simp)
        · cases b
          · rw [hok false hv hs] at h; exact absurd h (by simp)
          · exact ⟨(hsplit.mp hv).1, (hsplit.mp hv).2, hs ▸ rfl⟩
    · rintro ⟨h1, h2, h3⟩
      simpa using hok true (hsplit.mpr ⟨h1, h2⟩) h3
  · intro hne hsig
    apply hfail
    have hB : verifyBls a.replicas p.debiting_replicas_sig p.signed_transfer = false := by
      simp only [verifyBls, hsig, decide_eq_false_iff_not]
      intro hcontra
      injection hcontra with h1 h2
      exact hne h1
    simp [Actor.verify_debit_proof, hB]
  · intro hv hs; simpa using hok false hv hs
  · intro hv hs; exact herr _ hv hs

/-- Appending never removes a debit: the next debit counter is monotone. -/
theorem Account.next_debit_append_le (acc : Account) (t : Transfer) :
    acc.next_debit ≤ (acc.append t).next_debit := by
  unfold Account.append Account.next_debit
  split_ifs <;> simp

/-- The credit loop only grows the debit counter. -/
theorem Account.next_debit_applyCredits_le (acc : Account) (credits : List ReceivedCredit) :
    acc.next_debit ≤ (acc.applyCredits credits).next_debit := by
  induction credits generalizing acc with
  | nil => simp [Account.applyCredits]
  | cons c cs ih =>
    exact le_trans (Account.next_debit_append_le acc _) (ih _)

/-- The debit loop only grows the debit counter. -/
theorem Account.next_debit_applyDebits_le (acc : Account) (debits : List DebitAgreementProof) :
    acc.next_debit ≤ (acc.applyDebits debits).next_debit := by
  induction debits generalizing acc with
  | nil => simp [Account.applyDebits]
  | cons p ps ih =>
    exact le_trans (Account.next_debit_append_le acc _) (ih _)

/-- A successful `transfer` certifies the sequencing equality and the shape
of the produced dot. -/
theorem Actor.transfer_ok_inv {a : Actor} {amount : Nat} {«to» : AccountId}
    {e : TransferInitiated} (h : a.transfer amount «to» = .ok e) :
    a.next_debit_version = a.account.next_debit ∧
      e.signed_transfer.transfer.id = ⟨a.id, a.account.next_debit⟩ := by
  rw [Actor.transfer_eq] at h
  split_ifs at h with h1 h2 h3
  injection h with h4
  exact ⟨not_not.mp h2, by rw [← h4]⟩

/-- A successful `register` certifies that the transfer debits this account
at the next debit counter. -/
theorem Actor.register_ok_inv {a : Actor} {p : DebitAgreementProof}
    {ev : TransferRegistrationSent} (h : a.register p = .ok ev) :
    p.signed_transfer.transfer.id.actor = a.account.id ∧
      p.signed_transfer.transfer.id.counter = a.account.next_debit ∧ ev = ⟨p⟩ := by
  unfold Actor.register Account.is_sequential at h
  split_ifs at h with h1 h2
  by_cases hx : p.signed_transfer.transfer.id.counter = a.account.next_debit
  · simp [hx] at h
    exact ⟨not_not.mp h2, hx, h.symm⟩
  · simp [hx] at h

/-- Claim C1 (amended): on every reachable state, `next_debit_version` is at most
`account.next_debit() + 1`.  The claimed two-value invariant
`next_debit_version ∈ { next_debit(), next_debit() + 1 }` fails: applying a
`TransfersSynched` event with non-empty debits re-anchors
`next_debit_version` to `account.next_debit() − 1`. -/
theorem reachable_next_debit_version_le (a : Actor) (h : Reachable a) :
    a.next_debit_version ≤ a.account.next_debit + 1 := by
  induction h with
  | fresh id R f => simp [Actor.new, Account.new, Account.next_debit]
  | @step_transfer a amount «to» e hr ht ih =>
    obtain ⟨h1, h2⟩ := Actor.transfer_ok_inv ht
    simp [Actor.apply, TransferInitiated.id, h2]
  | @step_receive a v ev hr hrec ih =>
    simp only [Actor.apply]
    split_ifs <;> simpa using ih
  | @step_register a p ev hr hreg ih =>
    have hle := Account.next_debit_append_le a.account p.signed_transfer.transfer
    obtain ⟨h1, h2, rfl⟩ := Actor.register_ok_inv hreg
    simp only [Actor.apply]
    omega
  | @step_synch a es ev hr hs ih =>
    have hle1 := Account.next_debit_applyCredits_le a.account ev.credits
    have hle2 := Account.next_debit_applyDebits_le (a.account.applyCredits ev.credits) ev.debits
    simp only [Actor.apply]
    split_ifs with hd <;> simp <;> omega

/-- Claim C1 (counterexample): from a fresh actor, a successful `synch` of one
registered debit produces a `TransfersSynched` event with non-empty debits;
applying it leaves a reachable state with `next_debit_version = 0` while
`account.next_debit() = 1`, outside the claimed two-value set. -/
theorem next_debit_version_two_value_refuted :
    aC1.synch esC1 = .ok evC1 ∧
    Reachable (aC1.apply (.transfersSynched evC1)) ∧
    ¬ ((aC1.apply (.transfersSynched evC1)).next_debit_version
          = (aC1.apply (.transfersSynched evC1)).account.next_debit ∨
        (aC1.apply (.transfersSynched evC1)).next_debit_version
          = (aC1.apply (.transfersSynched evC1)).account.next_debit + 1) :=
  ⟨by decide,
    @Reachable.step_synch aC1 esC1 evC1 (Reachable.fresh 0 ⟨0, 1⟩ (fun _ => true)) (by decide),
    by decide⟩

/-- Claim C1 (witness): the bound holds on a concrete reachable state. -/
theorem reachable_next_debit_version_le_witness :
    (Actor.new 0 ⟨0, 1⟩ fun _ => true).next_debit_version
      ≤ (Actor.new 0 ⟨0, 1⟩ fun _ => true).account.next_debit + 1 :=
  reachable_next_debit_version_le _ (Reachable.fresh 0 ⟨0, 1⟩ (fun _ => true))

/-- Claim C3: whenever `receive` returns `Ok` with `proof = Some(p)`, the
aggregated signature of `p` verifies under `p.replica_key` over the
canonical serialisation of `p.signed_transfer`. -/
theorem receive_proof_verifies (a : Actor) (v : TransferValidated)
    (ev : TransferValidationReceived) (p : DebitAgreementProof)
    (h : a.receive v = .ok ev) (hp : ev.proof = some p) :
    verifyBls p.replica_key p.debiting_replicas_sig p.signed_transfer = true := by
  simp only [Actor.receive] at h
  repeat' split at h
  all_goals try exact ReceiveResult.noConfusion h
  all_goals injection h with h4
  all_goals rw [← h4] at hp
  all_goals try simp_all
  all_goals subst hp
  all_goals simp_all

/-- Claim C3 (witness): a concrete `receive` that emits a proof, whose aggregated
signature verifies under its replica key. -/
theorem receive_proof_verifies_witness :
    verifyBls pW3.replica_key pW3.debiting_replicas_sig pW3.signed_transfer = true :=
  receive_proof_verifies aW3 vW3b evW3 pW3 (by decide) (by decide)

/-- Claim C2 (amended): after a successful `transfer` for counter 0 and before
applying it, a validation with counter 1 is rejected as out of order, and
the valid counter-0 validation is accepted; after applying the
`TransferInitiated` event (which sets `next_debit_version` to
`counter + 1`), the valid counter-0 validation for the initiated transfer
is also rejected as out of order, not accepted. -/
theorem initiated_then_validation_out_of_order
    (id «to» : AccountId) (R : PublicKeySet) (f : PublicKeySet → Bool) (i : Nat)
    (hne : «to» ≠ id) :
    (Actor.new id R f).transfer 0 «to» =
      .ok ⟨⟨⟨⟨id, 0⟩, «to», 0⟩, ⟨id, ⟨⟨id, 0⟩, «to», 0⟩⟩⟩⟩ ∧
    (Actor.new id R f).receive
        ⟨⟨⟨⟨id, 1⟩, «to», 0⟩, ⟨id, ⟨⟨id, 1⟩, «to», 0⟩⟩⟩, ⟨i, ⟨R, i, ⟨⟨⟨id, 1⟩, «to», 0⟩, ⟨id, ⟨⟨id, 1⟩, «to», 0⟩⟩⟩⟩⟩, R⟩
      = .err (.other "Out of order validation") ∧
    (Actor.new id R f).receive
        ⟨⟨⟨⟨id, 0⟩, «to», 0⟩, ⟨id, ⟨⟨id, 0⟩, «to», 0⟩⟩⟩, ⟨i, ⟨R, i, ⟨⟨⟨id, 0⟩, «to», 0⟩, ⟨id, ⟨⟨id, 0⟩, «to», 0⟩⟩⟩⟩⟩, R⟩
      = .ok ⟨⟨⟨⟨⟨id, 0⟩, «to», 0⟩, ⟨id, ⟨⟨id, 0⟩, «to», 0⟩⟩⟩, ⟨i, ⟨R, i, ⟨⟨⟨id, 0⟩, «to», 0⟩, ⟨id, ⟨⟨id, 0⟩, «to», 0⟩⟩⟩⟩⟩, R⟩, none⟩ ∧
    ((Actor.new id R f).apply
        (.transferInitiated ⟨⟨⟨⟨id, 0⟩, «to», 0⟩, ⟨id, ⟨⟨id, 0⟩, «to», 0⟩⟩⟩⟩)).receive
        ⟨⟨⟨⟨id, 0⟩, «to», 0⟩, ⟨id, ⟨⟨id, 0⟩, «to», 0⟩⟩⟩, ⟨i, ⟨R, i, ⟨⟨⟨id, 0⟩, «to», 0⟩, ⟨id, ⟨⟨id, 0⟩, «to», 0⟩⟩⟩⟩⟩, R⟩
      = .err (.other "Out of order validation") := by
  refine ⟨?_, ?_, ?_, ?_⟩ <;>
    simp [Actor.new, Actor.transfer, Actor.sign, Actor.balance, Actor.receive,
      Actor.verify, Actor.verify_is_our_transfer, verifyActorSig, verifyShareSig,
      Actor.apply, TransferInitiated.id, maxByLenLast, Account.new,
      Account.next_debit, Account.balance, hne]

/-- Claim C2 (witness): the amended scenario at concrete inputs. -/
theorem initiated_then_validation_out_of_order_witness :
    (Actor.new 0 ⟨0, 1⟩ fun _ => true).transfer 0 1 =
      .ok ⟨⟨⟨⟨0, 0⟩, 1, 0⟩, ⟨0, ⟨⟨0, 0⟩, 1, 0⟩⟩⟩⟩ ∧
    (Actor.new 0 ⟨0, 1⟩ fun _ => true).receive
        ⟨⟨⟨⟨0, 1⟩, 1, 0⟩, ⟨0, ⟨⟨0, 1⟩, 1, 0⟩⟩⟩, ⟨0, ⟨⟨0, 1⟩, 0, ⟨⟨⟨0, 1⟩, 1, 0⟩, ⟨0, ⟨⟨0, 1⟩, 1, 0⟩⟩⟩⟩⟩, ⟨0, 1⟩⟩
      = .err (.other "Out of order validation") ∧
    (Actor.new 0 ⟨0, 1⟩ fun _ => true).receive
        ⟨⟨⟨⟨0, 0⟩, 1, 0⟩, ⟨0, ⟨⟨0, 0⟩, 1, 0⟩⟩⟩, ⟨0, ⟨⟨0, 1⟩, 0, ⟨⟨⟨0, 0⟩, 1, 0⟩, ⟨0, ⟨⟨0, 0⟩, 1, 0⟩⟩⟩⟩⟩, ⟨0, 1⟩⟩
      = .ok ⟨⟨⟨⟨⟨0, 0⟩, 1, 0⟩, ⟨0, ⟨⟨0, 0⟩, 1, 0⟩⟩⟩, ⟨0, ⟨⟨0, 1⟩, 0, ⟨⟨⟨0, 0⟩, 1, 0⟩, ⟨0, ⟨⟨0, 0⟩, 1, 0⟩⟩⟩⟩⟩, ⟨0, 1⟩⟩, none⟩ ∧
    ((Actor.new 0 ⟨0, 1⟩ fun _ => true).apply
        (.transferInitiated ⟨⟨⟨⟨0, 0⟩, 1, 0⟩, ⟨0, ⟨⟨0, 0⟩, 1, 0⟩⟩⟩⟩)).receive
        ⟨⟨⟨⟨0, 0⟩, 1, 0⟩, ⟨0, ⟨⟨0, 0⟩, 1, 0⟩⟩⟩, ⟨0, ⟨⟨0, 1⟩, 0, ⟨⟨⟨0, 0⟩, 1, 0⟩, ⟨0, ⟨⟨0, 0⟩, 1, 0⟩⟩⟩⟩⟩, ⟨0, 1⟩⟩
      = .err (.other "Out of order validation") :=
  initiated_then_validation_out_of_order 0 1 ⟨0, 1⟩ (fun _ => true) 0 (by decide)

/-- Claim C2 (counterexample): after applying the initiation for counter 0, the
valid validation for the initiated transfer is rejected as out of order,
not accepted as the claim states. -/
theorem validation_after_apply_not_ok :
    aC2.transfer 0 1 = .ok ⟨stC2⟩ ∧
    (aC2.apply (.transferInitiated ⟨stC2⟩)).receive vC2
      = .err (.other "Out of order validation") := by decide

/-- Claim C9: `receive` is not total: with one accumulated validation at share
index 0 over one transfer, a validation at the same share index over a
different transfer with the same counter passes every check, reaches the
quorum branch, and the index-keyed share map collapses below the
`threshold + 1` shares needed, so `combine_signatures` fails and the code
panics via `expect("not enough shares")`. -/
theorem receive_panics_on_duplicate_share_index :
    aC9base.receive vC9X = .ok ⟨vC9X, none⟩ ∧
    aC9.receive vC9Y = .panic := by decide

/-- Three chained filters collapse to one conjunctive filter. -/
theorem filter_chain {α : Type} (l : List α) (f1 f2 f3 : α → Bool) :
    ((l.filter f1).filter f2).filter f3 = l.filter fun x => f1 x && f2 x && f3 x := by
  rw [List.filter_filter, List.filter_filter]
  apply List.filter_congr
  intro x _
  cases f1 x <;> cases f2 x <;> cases f3 x <;> rfl

/-- The dense-prefix loop equals the take-while over counter-expectation
pairs. -/
theorem denseTake_eq_takeWhile (l : List DebitAgreementProof) (n : Nat) :
    denseTake n l =
      ((l.enumFrom n).takeWhile fun q => decide (q.2.counter = q.1)).map Prod.snd := by
  induction l generalizing n with
  | nil => rfl
  | cons d rest ih =>
    by_cases hc : d.counter = n <;>
      simp [denseTake, List.enumFrom_cons, List.takeWhile_cons, hc, ih]

/-- Claim C6: the debits list returned by a successful `synch` is exactly the
spec-described function of the batch: registered events, deduplicated by
dot, kept when from this actor with counter at least the next debit and a
verifying proof, sorted ascending, cut at the first counter gap. -/
theorem synch_debits_spec (a : Actor) (es : List ReplicaEvent) (s : TransfersSynched)
    (h : a.synch es = .ok s) : s.debits = specValidDebits a es := by
  have hd : a.validate_debits es = specValidDebits a es := by
    unfold Actor.validate_debits specValidDebits
    rw [filter_chain, denseTake_eq_takeWhile]
  rw [Actor.synch_eq] at h
  split_ifs at h
  injection h with h4
  rw [← h4]
  exact hd

/-- Claim C6 (witness): a concrete successful `synch` whose debits equal the
spec-described list. -/
theorem synch_debits_spec_witness : evC6.debits = specValidDebits aC6 esC6 :=
  synch_debits_spec aC6 esC6 evC6 (by decide)

theorem mkValidation_inj {st : SignedTransfer} {R : PublicKeySet} {i j : Nat} :
    mkValidation st R i = mkValidation st R j ↔ i = j := by
  simp [mkValidation]

theorem mkValidation_any_eq_false {st : SignedTransfer} {R : PublicKeySet}
    {done : List Nat} {i : Nat} (hi : i ∉ done) :
    ((done.map (mkValidation st R)).any fun w => decide (w = mkValidation st R i)) = false := by
  induction done with
  | nil => rfl
  | cons j rest ih =>
    have hj : ¬ (j = i) := fun h => hi (h ▸ List.mem_cons_self j rest)
    have hrest : i ∉ rest := fun h => hi (List.mem_cons_of_mem j h)
    simp only [List.map_cons, List.any_cons, ih hrest, Bool.or_false]
    simp [mkValidation_inj, hj]

theorem apply_validation_none (a : Actor) (v : TransferValidated) :
    a.apply (.transferValidationReceived ⟨v, none⟩) =
      withAcc a (insertValidation a.accumulating_validations v) := by
  simp [Actor.apply, withAcc]

theorem insertValidation_singleton {R : PublicKeySet} {ws : List TransferValidated}
    {v : TransferValidated} (hv : v.replicas = R)
    (hmem : (ws.any fun w => decide (w = v)) = false) :
    insertValidation [(R, ws)] v = [(R, ws ++ [v])] := by
  simp [insertValidation, hv, hmem]

theorem withAcc_withAcc (a : Actor) (m z : List (PublicKeySet × List TransferValidated)) :
    withAcc (withAcc a m) z = withAcc a z := rfl

theorem insertShare_fresh {acc : List (Nat × BlsShare)} {p : Nat × BlsShare}
    (h : p.1 ∉ acc.map Prod.fst) : insertShare acc p = acc ++ [p] := by
  induction acc with
  | nil => rfl
  | cons q rest ih =>
    simp only [List.map_cons, List.mem_cons, not_or] at h
    obtain ⟨h1, h2⟩ := h
    rw [insertShare, if_neg (fun hh => h1 hh.symm), ih h2]
    rfl

theorem collectShares_aux {L : List (Nat × BlsShare)} :
    ∀ {acc : List (Nat × BlsShare)}, (L.map Prod.fst).Nodup →
      (∀ k ∈ L.map Prod.fst, k ∉ acc.map Prod.fst) →
      L.foldl insertShare acc = acc ++ L := by
  induction L with
  | nil => intro acc _ _; simp [List.foldl_nil]
  | cons p ps ih =>
    intro acc hnodup hdisj
    simp only [List.map_cons, List.nodup_cons] at hnodup
    simp only [List.foldl_cons]
    rw [insertShare_fresh (hdisj p.1 (by simp))]
    rw [ih hnodup.2 ?_]
    · simp
    · intro k hk
      simp only [List.map_append, List.mem_append, List.map_cons, List.map_nil,
        List.mem_singleton, not_or]
      refine ⟨hdisj k (by simp [hk]), ?_⟩
      intro hkp
      exact hnodup.1 (hkp ▸ hk)

theorem collectShares_eq {L : List (Nat × BlsShare)} (h : (L.map Prod.fst).Nodup) :
    collectShares L = L :=
  collectShares_aux h (by simp)

theorem combine_signatures_mk {R : PublicKeySet} {st : SignedTransfer} {ks : List Nat}
    (hne : ks ≠ []) (hlen : R.threshold + 1 ≤ ks.length) :
    combine_signatures R (ks.map fun j => (j, ⟨R, j, st⟩)) = some (.valid R st) := by
  cases ks with
  | nil => exact absurd rfl hne
  | cons k rest =>
    have hall : (((k, (⟨R, k, st⟩ : BlsShare)) ::
        rest.map fun j => (j, (⟨R, j, st⟩ : BlsShare))).all
          fun p => decide (p.2.keyset = R ∧ p.2.index = p.1 ∧ p.2.msg = st)) = true := by
      simp only [List.all_eq_true, List.mem_cons, List.mem_map]
      rintro ⟨n, s⟩ (hp | ⟨j, hj, hp⟩) <;>
        (injection hp with hp1 hp2; subst hp1; subst hp2; simp)
    have hlen2 : ¬ (((k, (⟨R, k, st⟩ : BlsShare)) ::
        rest.map fun j => (j, (⟨R, j, st⟩ : BlsShare))).length < R.threshold + 1) := by
      simp only [List.length_cons, List.length_map]
      simp only [List.length_cons] at hlen
      omega
    unfold combine_signatures
    rw [List.map_cons, if_neg hlen2]
    show (if (((k, (⟨R, k, st⟩ : BlsShare)) ::
        rest.map fun j => (j, (⟨R, j, st⟩ : BlsShare))).all
          fun p => decide (p.2.keyset = R ∧ p.2.index = p.1 ∧ p.2.msg = st)) = true then
        some (BlsSig.valid R st) else some BlsSig.garbage) = some (BlsSig.valid R st)
    rw [if_pos hall]

/-- Evaluation of `receive` when every pre-quorum check passes and the
accumulator holds a single group. -/
theorem receive_single_group (a : Actor) (v : TransferValidated) (R : PublicKeySet)
    (ws : List TransferValidated)
    (hver : a.verify v = true)
    (hactor : a.id = v.signed_transfer.transfer.id.actor)
    (hcounter : a.next_debit_version = v.signed_transfer.transfer.id.counter)
    (hacc : a.accumulating_validations = [(R, ws)])
    (hdup : (ws.any fun w => decide (w = v)) = false) :
    a.receive v =
      if R.threshold ≤ ws.length ∧ R = v.replicas then
        match combine_signatures R (collectShares
            ((ws.map fun w => (w.replica_signature.index, w.replica_signature.share))
              ++ [(v.replica_signature.index, v.replica_signature.share)])) with
        | none => .panic
        | some sig =>
          if verifyBls R sig v.signed_transfer then
            .ok ⟨v, some ⟨v.signed_transfer, sig, R⟩⟩
          else .ok ⟨v, none⟩
      else .ok ⟨v, none⟩ := by
  unfold Actor.receive
  simp [hver, hactor.symm, hcounter, hacc, hdup, maxByLenLast]

theorem verify_mkValidation (a : Actor) (R : PublicKeySet) {st : SignedTransfer}
    (hsig : st.actor_signature = ⟨a.id, st.transfer⟩) (i : Nat) :
    a.verify (mkValidation st R i) = true := by
  simp [Actor.verify, Actor.verify_is_our_transfer, verifyActorSig, verifyShareSig,
    mkValidation, hsig]

theorem receive_mk_empty {a : Actor} {R : PublicKeySet} {st : SignedTransfer}
    (hacc : a.accumulating_validations = [])
    (hactor : st.transfer.id.actor = a.id)
    (hsig : st.actor_signature = ⟨a.id, st.transfer⟩)
    (hcounter : st.transfer.id.counter = a.next_debit_version) (i : Nat) :
    a.receive (mkValidation st R i) = .ok ⟨mkValidation st R i, none⟩ := by
  unfold Actor.receive
  simp [mkValidation, Actor.verify, Actor.verify_is_our_transfer, verifyActorSig,
    verifyShareSig, hsig, hactor, hcounter, hacc, maxByLenLast]

theorem receive_mk_under {a : Actor} {R : PublicKeySet} {st : SignedTransfer}
    {done : List Nat} {i : Nat}
    (hactor : st.transfer.id.actor = a.id)
    (hsig : st.actor_signature = ⟨a.id, st.transfer⟩)
    (hcounter : st.transfer.id.counter = a.next_debit_version)
    (hi : i ∉ done) (hlt : done.length < R.threshold) :
    (withAcc a [(R, done.map (mkValidation st R))]).receive (mkValidation st R i)
      = .ok ⟨mkValidation st R i, none⟩ := by
  rw [receive_single_group (withAcc a [(R, done.map (mkValidation st R))])
      (mkValidation st R i) R (done.map (mkValidation st R))
      (verify_mkValidation _ R hsig i)
      (by simp [withAcc, mkValidation, hactor])
      (by simp [withAcc, mkValidation, hcounter])
      rfl
      (mkValidation_any_eq_false hi)]
  rw [if_neg]
  intro hcon
  rw [List.length_map] at hcon
  omega

theorem receive_mk_quorum {a : Actor} {R : PublicKeySet} {st : SignedTransfer}
    {done : List Nat} {i : Nat}
    (hactor : st.transfer.id.actor = a.id)
    (hsig : st.actor_signature = ⟨a.id, st.transfer⟩)
    (hcounter : st.transfer.id.counter = a.next_debit_version)
    (hi : i ∉ done) (hdnodup : done.Nodup)
    (hq : R.threshold ≤ done.length) :
    (withAcc a [(R, done.map (mkValidation st R))]).receive (mkValidation st R i)
      = .ok ⟨mkValidation st R i, some ⟨st, .valid R st, R⟩⟩ := by
  rw [receive_single_group (withAcc a [(R, done.map (mkValidation st R))])
      (mkValidation st R i) R (done.map (mkValidation st R))
      (verify_mkValidation _ R hsig i)
      (by simp [withAcc, mkValidation, hactor])
      (by simp [withAcc, mkValidation, hcounter])
      rfl
      (mkValidation_any_eq_false hi)]
  rw [if_pos ⟨by rw [List.length_map]; exact hq, rfl⟩]
  have hshape :
      ((done.map (mkValidation st R)).map
          fun w => (w.replica_signature.index, w.replica_signature.share))
        ++ [((mkValidation st R i).replica_signature.index,
             (mkValidation st R i).replica_signature.share)]
      = (done ++ [i]).map fun j => (j, (⟨R, j, st⟩ : BlsShare)) := by
    rw [List.map_map, List.map_append]
    rfl
  rw [hshape]
  have hkeys : (((done ++ [i]).map fun j => (j, (⟨R, j, st⟩ : BlsShare))).map Prod.fst)
      = done ++ [i] := by
    simp [List.map_map, Function.comp_def]
  have hnodup2 : (done ++ [i]).Nodup := by
    simp only [List.nodup_append, List.nodup_cons, List.not_mem_nil, not_false_iff,
      List.nodup_nil, and_true, List.mem_singleton, true_and]
    refine ⟨hdnodup, ?_⟩
    intro x hx
    simp only [List.mem_singleton]
    intro hxi
    exact hi (hxi ▸ hx)
  rw [collectShares_eq (hkeys.symm ▸ hnodup2)]
  rw [combine_signatures_mk (by simp) (by rw [List.length_append]; simp; omega)]
  simp [verifyBls, mkValidation]

theorem feed_loop {a : Actor} {R : PublicKeySet} {st : SignedTransfer}
    (hactor : st.transfer.id.actor = a.id)
    (hsig : st.actor_signature = ⟨a.id, st.transfer⟩)
    (hcounter : st.transfer.id.counter = a.next_debit_version) :
    ∀ (rest done : List Nat), done ≠ [] → (done ++ rest).Nodup →
      done.length + rest.length = R.threshold + 1 → rest ≠ [] →
      (feedOutcomes (withAcc a [(R, done.map (mkValidation st R))])
          (rest.map (mkValidation st R))).map classifyOutcome
        = List.replicate (R.threshold - done.length) .okNone ++ [.okSome] := by
  intro rest
  induction rest with
  | nil => intro done h1 h2 h3 h4; exact absurd rfl h4
  | cons i rest' ih =>
    intro done hne hnodup hsum hrne
    have hparts : done.Nodup ∧ (i :: rest').Nodup ∧ ∀ x ∈ done, x ∉ i :: rest' := by
      rw [List.nodup_append] at hnodup
      exact ⟨hnodup.1, hnodup.2.1, fun x hx => hnodup.2.2 hx⟩
    have hi : i ∉ done := fun hmem => hparts.2.2 i hmem (List.mem_cons_self i rest')
    cases rest' with
    | nil =>
      have hlen : done.length = R.threshold := by
        simp only [List.length_cons, List.length_nil] at hsum
        omega
      rw [List.map_cons, List.map_nil, feedOutcomes,
        receive_mk_quorum hactor hsig hcounter hi hparts.1 (le_of_eq hlen.symm)]
      simp [feedOutcomes, classifyOutcome, hlen]
    | cons j rest'' =>
      have hlt : done.length < R.threshold := by
        simp only [List.length_cons] at hsum
        omega
      rw [List.map_cons, feedOutcomes,
        receive_mk_under hactor hsig hcounter hi hlt]
      dsimp only
      rw [apply_validation_none, withAcc_withAcc]
      have hstate : insertValidation
          ((withAcc a [(R, done.map (mkValidation st R))]).accumulating_validations)
          (mkValidation st R i) = [(R, (done ++ [i]).map (mkValidation st R))] := by
        show insertValidation [(R, done.map (mkValidation st R))] (mkValidation st R i) = _
        rw [insertValidation_singleton (show (mkValidation st R i).replicas = R from rfl)
            (mkValidation_any_eq_false hi), List.map_append]
        rfl
      rw [hstate, List.map_cons]
      rw [ih (done ++ [i]) (by simp) ?_ ?_ (by simp)]
      · have h2 : R.threshold - done.length = (R.threshold - (done ++ [i]).length) + 1 := by
          simp only [List.length_append, List.length_cons, List.length_nil] at hsum ⊢
          omega
        rw [h2, List.replicate_succ]
        rfl
      · rw [List.append_assoc]
        exact hnodup
      · simp only [List.length_append, List.length_cons, List.length_nil] at hsum ⊢
        omega

/-- Claim C4 (amended): from an empty accumulator and the expected counter,
feeding `t + 1` valid validations with pairwise-distinct share indices from
one group of threshold `t ≥ 1` (applying the returned event between calls)
yields `proof = None` on each of the first `t` calls and `Some` on the
`(t+1)`-th.  A validation passing the signature checks over `st` at index
`i` for group `R` is exactly `mkValidation st R i`. -/
theorem quorum_liveness_pos_threshold
    (a : Actor) (R : PublicKeySet) (st : SignedTransfer) (idx : List Nat)
    (hacc : a.accumulating_validations = [])
    (ht : 1 ≤ R.threshold)
    (hlen : idx.length = R.threshold + 1)
    (hnodup : idx.Nodup)
    (hactor : st.transfer.id.actor = a.id)
    (hsig : st.actor_signature = ⟨a.id, st.transfer⟩)
    (hcounter : st.transfer.id.counter = a.next_debit_version) :
    (feedOutcomes a (idx.map (mkValidation st R))).map classifyOutcome
      = List.replicate R.threshold FeedOutcome.okNone ++ [FeedOutcome.okSome] := by
  cases idx with
  | nil =>
    simp only [List.length_nil] at hlen
    omega
  | cons i rest =>
    have hrne : rest ≠ [] := by
      intro hrest
      subst hrest
      simp only [List.length_cons, List.length_nil] at hlen
      omega
    rw [List.map_cons, feedOutcomes, receive_mk_empty hacc hactor hsig hcounter i]
    dsimp only
    have hstate : a.apply (.transferValidationReceived ⟨mkValidation st R i, none⟩)
        = withAcc a [(R, [i].map (mkValidation st R))] := by
      rw [apply_validation_none, hacc]
      rfl
    rw [hstate, List.map_cons]
    rw [feed_loop hactor hsig hcounter rest [i] (by simp) ?_ ?_ hrne]
    · have h3 : List.replicate R.threshold FeedOutcome.okNone
          = FeedOutcome.okNone :: List.replicate (R.threshold - 1) FeedOutcome.okNone := by
        conv_lhs => rw [show R.threshold = (R.threshold - 1) + 1 from by omega]
        rw [List.replicate_succ]
      rw [h3]
      simp [classifyOutcome]
    · simpa using hnodup
    · simp only [List.length_cons, List.length_nil] at hlen ⊢
      omega

/-- Claim C4 (counterexample): at threshold `t = 0` the claim fails: the single
(`t+1`-th) call happens with an empty accumulator, there is no largest
group, the quorum branch is never reached, and `receive` returns
`proof = None` instead of `Some`. -/
theorem quorum_liveness_zero_threshold_refuted :
    RC4.threshold = 0 ∧
    aC4.accumulating_validations = [] ∧
    stC4.transfer.id.counter = aC4.next_debit_version ∧
    (feedOutcomes aC4 ([0].map (mkValidation stC4 RC4))).map classifyOutcome
      = [FeedOutcome.okNone] := by decide

/-- Claim C4 (witness): the amended liveness at threshold 1 with indices 0, 1. -/
theorem quorum_liveness_pos_threshold_witness :
    (feedOutcomes aW4 ([0, 1].map (mkValidation stW4 RW4))).map classifyOutcome
      = List.replicate RW4.threshold FeedOutcome.okNone ++ [FeedOutcome.okSome] :=
  quorum_liveness_pos_threshold aW4 RW4 stW4 [0, 1] (by decide) (by decide) (by decide)
    (by decide) (by decide) (by decide) (by decide)

/-- Claim C5 (witness): a concrete proof aggregated under a key set other
than the trusted replicas is rejected with `InvalidSignature` even though
it verifies under its own `replica_key`. -/
theorem register_ok_iff_witness :
    aW5.register pW5 = .error .invalidSignature :=
  (register_ok_iff aW5 pW5).2.2.1 (by decide) (by decide)

end SafeTransfers
